import Mathlib

/-!
Verification of the laneful-nodejs client library.

Shallow embedding of the Dispatch Core (`src/client/LanefulClient.ts`) and the
Webhook Core (`src/webhooks/WebhookTypes.ts`).  Pure functions of the source are
translated to Lean functions; the HTTP transport, the JSON parser, the random
number generator and the HMAC primitive are explicit parameters (they are
platform collaborators, not code of this repository).  JavaScript numbers that
only ever hold small exact values are modelled as `Nat`/`Int`/`Rat`.
-/

namespace Laneful

open scoped List

instance {ε α : Type _} [DecidableEq ε] [DecidableEq α] : DecidableEq (Except ε α) := by
  intro x y
  cases x <;> cases y
  case ok.ok a b =>
    exact if h : a = b then .isTrue (by rw [h]) else .isFalse (by simp [h])
  case error.error a b =>
    exact if h : a = b then .isTrue (by rw [h]) else .isFalse (by simp [h])
  case ok.error a b => exact .isFalse (by simp)
  case error.ok a b => exact .isFalse (by simp)

/-! ### Error taxonomy (`src/exceptions`) and transport-level data -/

/-- Network-level error codes distinguished by `isRetryableError` and the final
error translation in `makeRequest`. -/
inductive NetCode
  | econnaborted
  | econnrefused
  | enotfound
  | etimedout
  | other
deriving DecidableEq, Repr

/-- The projection of a parsed JSON response body onto the fields the client
reads (`status`, `error`, `message`).  A field that is absent (or not a string)
is `none`, mirroring `undefined` under TypeScript's nullish operators. -/
structure ApiBody where
  status : Option String := none
  error : Option String := none
  message : Option String := none
deriving DecidableEq, Repr

/-- Raw axios response `data`: a string, an object, or anything else
(`null`, a number, ...). -/
inductive RespBody
  | str (s : String)
  | obj (b : ApiBody)
  | otherData
deriving DecidableEq, Repr

/-- Errors that can be caught inside `makeRequest`'s try/catch:
an axios error (network failure, optionally carrying a response), or one of the
`LanefulError` subclasses thrown by `processResponse` / `checkRateLimit`. -/
inductive CaughtError
  | axiosErr (msg : String) (code : Option NetCode) (resp : Option (Nat × RespBody))
  | authError (msg : String)
  | apiError (msg : String) (statusCode : Nat) (responseData : ApiBody)
  | validationError (msg : String)
  | lanefulError (msg : String)
deriving DecidableEq, Repr

/-- `axios.isAxiosError`. -/
def isAxiosError : CaughtError → Bool
  | .axiosErr .. => true
  | _ => false

/-- `error.message` (every `CaughtError` models a JS `Error` instance). -/
def errMessage : CaughtError → String
  | .axiosErr m _ _ => m
  | .authError m => m
  | .apiError m _ _ => m
  | .validationError m => m
  | .lanefulError m => m

/-- `String(error)` for an `Error`: `"{name}: {message}"`. -/
def errToString (e : CaughtError) : String :=
  let n : String :=
    match e with
    | .axiosErr .. => "AxiosError"
    | .authError _ => "LanefulAuthError"
    | .apiError .. => "LanefulAPIError"
    | .validationError _ => "LanefulValidationError"
    | .lanefulError _ => "LanefulError"
  let m := errMessage e
  s!"{n}: {m}"

/-! ### `processResponse` (LanefulClient.ts lines 456-489) -/

/-- Body normalisation at the top of `processResponse`: a string body is
JSON-parsed (`jsonParse` is the platform's `JSON.parse`, returning `none` on a
parse failure), falling back to `{message: data}`; an object body is used
as-is; anything else becomes the `{data}` wrapper, which carries none of the
fields the client reads. -/
def parseBody (jsonParse : String → Option ApiBody) : RespBody → ApiBody
  | .str s =>
    match jsonParse s with
    | some j => j
    | none => { message := some s }
  | .obj b => b
  | .otherData => {}

/-- `LanefulClient.processResponse`: 401 → auth error; other ≥ 400 → API error
with message preference `error` ?? `message` ?? `"HTTP {status}"`; < 400 →
the parsed body. -/
def processResponse (jsonParse : String → Option ApiBody) (statusCode : Nat)
    (data : RespBody) : Except CaughtError ApiBody :=
  let responseData := parseBody jsonParse data
  if statusCode = 401 then
    .error (.authError "Invalid authentication token")
  else if 400 ≤ statusCode then
    let errorMessage :=
      responseData.error.getD (responseData.message.getD s!"HTTP {statusCode}")
    .error (.apiError errorMessage statusCode responseData)
  else
    .ok responseData

/-! ### Rate limiting (LanefulClient.ts lines 268-291) -/

structure RateLimitOptions where
  maxRequests : Nat
  windowMs : Int
deriving DecidableEq, Repr

/-- The client instance's mutable rate-limit state
(`requestCount`, `windowStart`). -/
structure RateState where
  requestCount : Nat
  windowStart : Int
deriving DecidableEq, Repr

/-- `Math.ceil(a / 1000)` for an integer `a` (exact in float64 for the ranges
involved). -/
def ceilDiv1000 (a : Int) : Int := Int.ediv (a + 999) 1000

/-- `LanefulClient.checkRateLimit`, with `Date.now()` passed in as `now`.
Returns the error message (if the limit is exceeded) and the updated state;
note that a window reset performed before the throw persists. -/
def checkRateLimit (opts : Option RateLimitOptions) (now : Int) (s : RateState) :
    Option String × RateState :=
  match opts with
  | none => (none, s)
  | some o =>
    let windowElapsed := now - s.windowStart
    let s1 := if o.windowMs ≤ windowElapsed then
        { requestCount := 0, windowStart := now } else s
    if o.maxRequests ≤ s1.requestCount then
      let w := ceilDiv1000 (o.windowMs - windowElapsed)
      (some s!"Rate limit exceeded. Try again in {w} seconds.", s1)
    else
      (none, { s1 with requestCount := s1.requestCount + 1 })

/-! ### Retry/backoff (LanefulClient.ts lines 296-346 and 359-446) -/

structure RetryOptions where
  maxRetries : Nat
  baseDelay : ℚ
  maxDelay : ℚ
  backoffMultiplier : ℚ
  jitter : ℚ
deriving DecidableEq, Repr

/-- The constructor's retry defaults. -/
def defaultRetryOptions : RetryOptions :=
  { maxRetries := 3, baseDelay := 1000, maxDelay := 10000,
    backoffMultiplier := 2, jitter := 1/10 }

/-- `LanefulClient.calculateRetryDelay`; `r` is the `Math.random()` draw in
`[0,1)` for this attempt. -/
def calculateRetryDelay (ro : RetryOptions) (attempt : Nat) (r : ℚ) : Int :=
  let exponentialDelay := min (ro.baseDelay * ro.backoffMultiplier ^ attempt) ro.maxDelay
  let jitterAmt := exponentialDelay * ro.jitter * r
  Rat.floor (exponentialDelay + jitterAmt)

/-- `LanefulClient.isRetryableError`: specific network codes, HTTP 5xx except
501, and HTTP 429 are retryable; everything else (in particular any
non-axios error) is not. -/
def isRetryableError : CaughtError → Bool
  | .axiosErr _ code resp =>
    (match code with
      | some .econnaborted => true
      | some .econnrefused => true
      | some .enotfound => true
      | some .etimedout => true
      | _ => false)
    || (match resp with
      | some (s, _) => (decide (500 ≤ s) && decide (s ≠ 501)) || decide (s = 429)
      | none => false)
  | _ => false

/-- Outcome of one physical HTTP attempt: the axios promise either resolves
with a response (any status — the client sets `validateStatus: () => true`) or
rejects with a network error. -/
inductive AttemptOutcome
  | resp (status : Nat) (data : RespBody)
  | net (msg : String) (code : NetCode)
deriving DecidableEq, Repr

/-- The body of one loop iteration of `makeRequest`: run the request and push
the response through `processResponse`; a network rejection surfaces as an
axios error without a response (statuses never reject here, because
`validateStatus` always accepts). -/
def tryAttempt (jsonParse : String → Option ApiBody) :
    AttemptOutcome → Except CaughtError ApiBody
  | .resp s d => processResponse jsonParse s d
  | .net m c => .error (.axiosErr m (some c) none)

/-- Result of the retry loop: the final value or last error, the number of
HTTP invocations performed, and the list of backoff delays slept. -/
structure ReqOut where
  result : Except CaughtError ApiBody
  httpCalls : Nat
  sleeps : List Int
deriving DecidableEq, Repr

/-- The `for attempt in 0..maxRetries` loop of `makeRequest`.  `script k` is
the outcome of the `k`-th physical attempt; `rand k` the random draw used for
the backoff after attempt `k`.  `fuel` is `maxRetries - attempt`. -/
def requestLoop (jsonParse : String → Option ApiBody) (ro : RetryOptions)
    (script : Nat → AttemptOutcome) (rand : Nat → ℚ) :
    Nat → Nat → ReqOut
  | attempt, fuel =>
    match tryAttempt jsonParse (script attempt) with
    | .ok body => ⟨.ok body, 1, []⟩
    | .error e =>
      match fuel with
      | 0 => ⟨.error e, 1, []⟩
      | f + 1 =>
        if isRetryableError e then
          let d := calculateRetryDelay ro attempt (rand attempt)
          let sub := requestLoop jsonParse ro script rand (attempt + 1) f
          ⟨sub.result, sub.httpCalls + 1, d :: sub.sleeps⟩
        else
          ⟨.error e, 1, []⟩

/-- Lines 425-445 of `makeRequest`: translation of the final error after the
loop exits without a successful return. -/
def finalizeError (jsonParse : String → Option ApiBody) (ro : RetryOptions)
    (e : CaughtError) : Except CaughtError ApiBody :=
  match e with
  | .axiosErr _ (some .econnaborted) _ =>
    .error (.lanefulError "Request timed out")
  | .axiosErr _ (some .econnrefused) _ =>
    .error (.lanefulError "Failed to connect to Laneful API")
  | .axiosErr _ (some .enotfound) _ =>
    .error (.lanefulError "Failed to connect to Laneful API")
  | .axiosErr _ _ (some (s, b)) => processResponse jsonParse s b
  | .axiosErr m c none =>
    let n := ro.maxRetries + 1
    let str := errToString (.axiosErr m c none)
    .error (.lanefulError s!"Request failed after {n} attempts: {str}")
  | .authError m => .error (.authError m)
  | .apiError m s b => .error (.apiError m s b)
  | .validationError m => .error (.validationError m)
  | .lanefulError m => .error (.lanefulError m)

structure MakeOut where
  result : Except CaughtError ApiBody
  state : RateState
  httpCalls : Nat
  sleeps : List Int
deriving DecidableEq, Repr

/-- `LanefulClient.makeRequest`: one rate-limit check, then the retry loop,
then final error translation. -/
def makeRequest (jsonParse : String → Option ApiBody)
    (rl : Option RateLimitOptions) (ro : RetryOptions)
    (now : Int) (st : RateState)
    (script : Nat → AttemptOutcome) (rand : Nat → ℚ) : MakeOut :=
  match checkRateLimit rl now st with
  | (some msg, st1) => ⟨.error (.lanefulError msg), st1, 0, []⟩
  | (none, st1) =>
    let lp := requestLoop jsonParse ro script rand 0 ro.maxRetries
    match lp.result with
    | .ok body => ⟨.ok body, st1, lp.httpCalls, lp.sleeps⟩
    | .error e => ⟨finalizeError jsonParse ro e, st1, lp.httpCalls, lp.sleeps⟩

/-! ### `sendEmails` (LanefulClient.ts lines 175-262, 499-549) -/

inductive EmailStatus
  | accepted
  | failed
  | validation_failed
deriving DecidableEq, Repr

/-- `EmailResponse` (`src/models/EmailResponse.ts`): `index` and `error` are
`number | undefined` / `string | undefined`. -/
structure EmailResponse where
  status : EmailStatus
  index : Option Nat
  error : Option String
  success : Bool
deriving DecidableEq, Repr

/-- The `emails.forEach` validation pass of `sendEmails`, started at index `i`:
partitions into `validEmailData` (message with its original index; the wire
serialisation is irrelevant to the control flow, so the message itself stands
for its serialised form) and `validationErrors` (index with the thrown
message).  `validate e = none` means `validateEmail` returned normally,
`some msg` that it threw an `Error` with message `msg`. -/
def partitionEmails (validate : α → Option String) :
    List α → Nat → List (α × Nat) × List (Nat × String)
  | [], _ => ([], [])
  | e :: rest, i =>
    let p := partitionEmails validate rest (i + 1)
    match validate e with
    | none => ((e, i) :: p.1, p.2)
    | some msg => (p.1, (i, msg) :: p.2)

/-- `LanefulClient.processEmailsResponse`: a top-level `{status: "accepted"}`
yields one accepted result per valid email; anything else yields one failed
result per valid email carrying `responseData.error || 'Unknown error'`
(JavaScript `||`, so an empty string also falls back). -/
def processEmailsResponse (responseData : ApiBody)
    (validEmailData : List (α × Nat)) : List EmailResponse :=
  if responseData.status = some "accepted" then
    validEmailData.map fun p =>
      { status := .accepted, index := some p.2, error := none, success := true }
  else
    let errorMessage :=
      match responseData.error with
      | some s => if s = "" then "Unknown error" else s
      | none => "Unknown error"
    validEmailData.map fun p =>
      { status := .failed, index := some p.2, error := some errorMessage,
        success := false }

/-- `responses.splice(index, 0, item)`: JavaScript clamps the start position
to the array length and inserts. -/
def spliceInsert (l : List EmailResponse) (i : Nat) (r : EmailResponse) :
    List EmailResponse :=
  l.insertIdx (min i l.length) r

/-- The sort comparator `(a, b) => (a.index ?? 0) - (b.index ?? 0)` as the
boolean order it induces. -/
def respLe (a b : EmailResponse) : Bool :=
  decide (a.index.getD 0 ≤ b.index.getD 0)

structure SendOut where
  result : Except CaughtError (List EmailResponse)
  state : RateState
  httpCalls : Nat
deriving Repr, DecidableEq

/-- The `responses` local of `sendEmails`: on a successful `makeRequest`,
reconcile through `processEmailsResponse`; on any thrown error, synthesize one
`failed` result per valid email carrying `error.message`. -/
def responsesOf (validEmailData : List (α × Nat))
    (res : Except CaughtError ApiBody) : List EmailResponse :=
  match res with
  | .ok responseData => processEmailsResponse responseData validEmailData
  | .error e =>
    validEmailData.map fun p =>
      { status := .failed, index := some p.2, error := some (errMessage e),
        success := false }

/-- The `validation_failed` response spliced in for one invalid email. -/
def mkValidationResp (q : Nat × String) : EmailResponse :=
  { status := .validation_failed, index := some q.1, error := some q.2,
    success := false }

/-- The `validationErrors.forEach(... splice ...)` loop of `sendEmails`. -/
def mergeValidation (validationErrors : List (Nat × String))
    (responses : List EmailResponse) : List EmailResponse :=
  validationErrors.foldl (fun acc q => spliceInsert acc q.1 (mkValidationResp q))
    responses

/-- The message of the all-invalid validation error:
`All emails failed validation: [i] err, ...`. -/
def allFailedMsg (validationErrors : List (Nat × String)) : String :=
  let parts := validationErrors.map fun p =>
    let i := p.1
    let e := p.2
    s!"[{i}] {e}"
  "All emails failed validation: " ++ String.intercalate ", " parts

/-- `LanefulClient.sendEmails`.  The first component of the output is the
promise outcome (`.error` = the promise rejects), `state` the rate-limiter
state afterwards, `httpCalls` the number of physical HTTP invocations.
Note that every error thrown by `makeRequest` — including the rate-limit
error — is caught and converted to per-message `failed` results. -/
def sendEmails (validate : α → Option String)
    (jsonParse : String → Option ApiBody)
    (rl : Option RateLimitOptions) (ro : RetryOptions)
    (now : Int) (st : RateState)
    (script : Nat → AttemptOutcome) (rand : Nat → ℚ)
    (emails : List α) : SendOut :=
  if emails.isEmpty then
    ⟨.error (.validationError "Email list cannot be empty"), st, 0⟩
  else
    let part := partitionEmails validate emails 0
    let validEmailData := part.1
    let validationErrors := part.2
    if validEmailData.length = 0 then
      ⟨.error (.validationError (allFailedMsg validationErrors)), st, 0⟩
    else
      let mk := makeRequest jsonParse rl ro now st script rand
      let responses := responsesOf validEmailData mk.result
      let merged := mergeValidation validationErrors responses
      ⟨.ok (merged.mergeSort respLe), mk.state, mk.httpCalls⟩

/-- `LanefulClient.sendEmail`: send a one-element batch and take the sole
response. -/
def sendEmail (validate : α → Option String)
    (jsonParse : String → Option ApiBody)
    (rl : Option RateLimitOptions) (ro : RetryOptions)
    (now : Int) (st : RateState)
    (script : Nat → AttemptOutcome) (rand : Nat → ℚ)
    (email : α) : Except CaughtError (Option EmailResponse) × RateState × Nat :=
  let out := sendEmails validate jsonParse rl ro now st script rand [email]
  match out.result with
  | .ok rs => (.ok rs.head?, out.state, out.httpCalls)
  | .error e => (.error e, out.state, out.httpCalls)

/-! ### Webhook Core (`src/webhooks/WebhookTypes.ts`) -/

/-- One hex digit (`0-9`, `a-f`, `A-F`) to its value. -/
def hexDigitVal (c : Char) : Option Nat :=
  let n := c.toNat
  if 48 ≤ n ∧ n ≤ 57 then some (n - 48)
  else if 97 ≤ n ∧ n ≤ 102 then some (n - 87)
  else if 65 ≤ n ∧ n ≤ 70 then some (n - 55)
  else none

/-- Node's `Buffer.from(s, 'hex')`: decode hex pairs greedily, stopping at the
first pair that is not two hex digits (a trailing lone digit is dropped). -/
def hexDecode : List Char → List Nat
  | c1 :: c2 :: rest =>
    match hexDigitVal c1, hexDigitVal c2 with
    | some h, some l => (16 * h + l) :: hexDecode rest
    | _, _ => []
  | _ => []

/-- Node's `crypto.timingSafeEqual`: throws a `RangeError` when the two
buffers differ in byte length, otherwise compares. -/
def timingSafeEqual (a b : List Nat) : Except String Bool :=
  if a.length = b.length then .ok (decide (a = b))
  else .error "Input buffers must have the same byte length"

def sha256Tag : List Char := "sha256=".toList

/-- The header-stripping step of `verifySignature`
(`signature.startsWith('sha256=') ? signature.slice(7) : signature`). -/
def signatureToVerify (signature : List Char) : List Char :=
  if sha256Tag.isPrefixOf signature then signature.drop 7 else signature

/-- `WebhookHandler.verifySignature`.  `hmacSha256Hex secret payload` is the
platform's hex-encoded `createHmac('sha256', secret).update(payload).digest('hex')`;
strings are modelled as `List Char`, the payload as its bytes.  The
`Except` layer records that `timingSafeEqual` can throw. -/
def verifySignature (webhookSecret : Option String)
    (hmacSha256Hex : String → List Nat → List Char)
    (payload : List Nat) (signature : List Char) : Except String Bool :=
  match webhookSecret with
  | none => .ok true
  | some secret =>
    let sigV := signatureToVerify signature
    let expectedSignature := hmacSha256Hex secret payload
    if sigV.length = expectedSignature.length then
      timingSafeEqual (hexDecode sigV) (hexDecode expectedSignature)
    else
      .ok false

/-! ### Webhook event parsing and dispatch -/

/-- The untyped JSON object of one webhook event, projected onto the fields
`createWebhookEvent` reads (absent field = `none`). -/
structure EventData where
  email : Option String := none
  event : Option String := none
  lane_id : Option String := none
  message_id : Option String := none
  metadata : List (String × String) := []
  tag : Option String := none
  timestamp : Option Int := none
  referer : Option String := none
  client_name : Option String := none
  client_os : Option String := none
  client_ip : Option String := none
  client_device : Option String := none
  url : Option String := none
  reason : Option String := none
  feedback_type : Option Int := none
  feedback_type_text : Option String := none
  received_unix_timestamp : Option Int := none
  unsubscribe_group_id : Option Int := none
  code : Option String := none
  extended_code : Option String := none
  text : Option String := none
  is_hard : Option Bool := none
  deliverability_issue : Option String := none
deriving DecidableEq, Repr

/-- `BaseWebhookEvent`: the shared fields, with the `?? ''` / `?? 0` defaults
already applied. -/
structure BaseWebhookEvent where
  email : String
  event : String
  lane_id : String
  message_id : String
  metadata : List (String × String)
  tag : String
  timestamp : Int
deriving DecidableEq, Repr

/-- The tagged union `WebhookEvent`; `unknownKind` is the `default:` branch of
the switch (the base record returned unchanged). -/
inductive WebhookEvent
  | delivery (base : BaseWebhookEvent)
  | opened (base : BaseWebhookEvent)
      (referer client_name client_os client_ip client_device : Option String)
  | click (base : BaseWebhookEvent) (url : String)
      (referer client_name client_os client_ip client_device : Option String)
  | dropEvt (base : BaseWebhookEvent) (reason : String)
  | spamComplaint (base : BaseWebhookEvent) (feedback_type : Int)
      (feedback_type_text : String) (received_unix_timestamp : Int)
  | unsubscribe (base : BaseWebhookEvent) (unsubscribe_group_id : Option Int)
  | bounce (base : BaseWebhookEvent) (code : String)
      (extended_code : Option String) (text : String) (is_hard : Bool)
      (deliverability_issue : Option String)
  | unknownKind (base : BaseWebhookEvent)
deriving DecidableEq, Repr

/-- The `event` field of the constructed event (every variant carries the base
record's `event` string unchanged). -/
def WebhookEvent.eventKind : WebhookEvent → String
  | .delivery b => b.event
  | .opened b _ _ _ _ _ => b.event
  | .click b _ _ _ _ _ _ => b.event
  | .dropEvt b _ => b.event
  | .spamComplaint b _ _ _ => b.event
  | .unsubscribe b _ => b.event
  | .bounce b _ _ _ _ _ => b.event
  | .unknownKind b => b.event

/-- `createWebhookEvent`: build the base record with defaults, then switch on
the event-kind discriminator. -/
def createWebhookEvent (data : EventData) : WebhookEvent :=
  let base : BaseWebhookEvent :=
    { email := data.email.getD ""
      event := data.event.getD ""
      lane_id := data.lane_id.getD ""
      message_id := data.message_id.getD ""
      metadata := data.metadata
      tag := data.tag.getD ""
      timestamp := data.timestamp.getD 0 }
  match base.event with
  | "delivery" => .delivery base
  | "open" =>
    .opened base data.referer data.client_name data.client_os
      data.client_ip data.client_device
  | "click" =>
    .click base (data.url.getD "") data.referer data.client_name
      data.client_os data.client_ip data.client_device
  | "drop" => .dropEvt base (data.reason.getD "")
  | "spam_complaint" =>
    .spamComplaint base (data.feedback_type.getD 0)
      (data.feedback_type_text.getD "") (data.received_unix_timestamp.getD 0)
  | "unsubscribe" => .unsubscribe base data.unsubscribe_group_id
  | "bounce" =>
    .bounce base (data.code.getD "") data.extended_code (data.text.getD "")
      (data.is_hard.getD false) data.deliverability_issue
  | _ => .unknownKind base

/-- `WebhookHandler.processSingleEvent`: construct the event, fail hard when
the discriminator is missing (JavaScript `!event.event`, i.e. the empty
string), otherwise look up and invoke the registered handler (handlers are
identified by `Nat` ids; the returned value says which handler ran, if any). -/
def processSingleEvent (handlers : List (String × Nat)) (eventData : EventData) :
    Except String (Option Nat) :=
  let event := createWebhookEvent eventData
  if event.eventKind = "" then
    .error "Webhook payload missing required field: event"
  else
    match handlers.lookup event.eventKind with
    | some h => .ok (some h)
    | none => .ok none

/-! ### Supporting lemmas -/

theorem insertIdx_perm_cons (a : β) :
    ∀ (l : List β) (i : Nat), i ≤ l.length → l.insertIdx i a ~ a :: l := by
  intro l
  induction l with
  | nil =>
    intro i hi
    have : i = 0 := Nat.le_zero.mp (by simpa using hi)
    subst this
    simp
  | cons b t ih =>
    intro i hi
    cases i with
    | zero => simp
    | succ j =>
      rw [List.insertIdx_succ_cons]
      exact (List.Perm.cons b (ih j (by simpa using hi))).trans (List.Perm.swap a b t)

theorem spliceInsert_perm (l : List EmailResponse) (i : Nat) (r : EmailResponse) :
    spliceInsert l i r ~ r :: l :=
  insertIdx_perm_cons r l (min i l.length) (Nat.min_le_right _ _)

theorem mergeValidation_perm :
    ∀ (inv : List (Nat × String)) (acc : List EmailResponse),
      mergeValidation inv acc ~ acc ++ inv.map mkValidationResp := by
  intro inv
  induction inv with
  | nil => intro acc; simp [mergeValidation]
  | cons q rest ih =>
    intro acc
    have h1 : mergeValidation (q :: rest) acc =
        mergeValidation rest (spliceInsert acc q.1 (mkValidationResp q)) := rfl
    rw [h1]
    refine (ih _).trans ?_
    refine (List.Perm.append_right _ (spliceInsert_perm acc q.1 (mkValidationResp q))).trans ?_
    calc (mkValidationResp q :: acc) ++ rest.map mkValidationResp
        = mkValidationResp q :: (acc ++ rest.map mkValidationResp) := by simp
      _ ~ acc ++ mkValidationResp q :: rest.map mkValidationResp := List.perm_middle.symm
      _ = acc ++ (q :: rest).map mkValidationResp := by simp

theorem partition_idx_perm (validate : α → Option String) :
    ∀ (emails : List α) (i : Nat),
      ((partitionEmails validate emails i).1.map Prod.snd)
          ++ ((partitionEmails validate emails i).2.map Prod.fst)
        ~ List.range' i emails.length := by
  intro emails
  induction emails with
  | nil => intro i; simp [partitionEmails]
  | cons e rest ih =>
    intro i
    rw [List.length_cons, List.range'_succ]
    cases hv : validate e with
    | none =>
      have h1 : partitionEmails validate (e :: rest) i =
          ((e, i) :: (partitionEmails validate rest (i + 1)).1,
            (partitionEmails validate rest (i + 1)).2) := by
        simp [partitionEmails, hv]
      rw [h1]
      simpa using List.Perm.cons i (ih (i + 1))
    | some msg =>
      have h1 : partitionEmails validate (e :: rest) i =
          ((partitionEmails validate rest (i + 1)).1,
            (i, msg) :: (partitionEmails validate rest (i + 1)).2) := by
        simp [partitionEmails, hv]
      rw [h1]
      simp only [List.map_cons]
      exact List.perm_middle.trans (List.Perm.cons i (ih (i + 1)))

theorem partition_fst_ne_nil (validate : α → Option String) :
    ∀ (emails : List α) (i : Nat), (∃ e ∈ emails, validate e = none) →
      (partitionEmails validate emails i).1 ≠ [] := by
  intro emails
  induction emails with
  | nil => intro i h; obtain ⟨e, he, _⟩ := h; cases he
  | cons e rest ih =>
    intro i h
    cases hv : validate e with
    | none => simp [partitionEmails, hv]
    | some msg =>
      obtain ⟨x, hx, hxv⟩ := h
      rcases List.mem_cons.mp hx with rfl | hx'
      · rw [hv] at hxv; cases hxv
      · simpa [partitionEmails, hv] using ih (i + 1) ⟨x, hx', hxv⟩

theorem partition_all_invalid (validate : α → Option String) :
    ∀ (emails : List α) (i : Nat), (∀ e ∈ emails, validate e ≠ none) →
      partitionEmails validate emails i =
        ([], ((List.range' i emails.length).zip emails).map fun p =>
          (p.1, (validate p.2).getD "")) := by
  intro emails
  induction emails with
  | nil => intro i _; simp [partitionEmails]
  | cons e rest ih =>
    intro i h
    cases hv : validate e with
    | none => exact absurd hv (h e (List.mem_cons_self e rest))
    | some msg =>
      rw [List.length_cons, List.range'_succ]
      simp only [partitionEmails, hv, List.zip_cons_cons, List.map_cons]
      rw [ih (i + 1) (fun x hx => h x (List.mem_cons_of_mem e hx))]
      simp [hv]

theorem responsesOf_indices (v : List (α × Nat)) (res : Except CaughtError ApiBody) :
    (responsesOf v res).map (fun r => r.index) = v.map (fun p => some p.2) := by
  cases res with
  | ok b =>
    by_cases hb : b.status = some "accepted" <;>
      simp [responsesOf, processEmailsResponse, hb, List.map_map, Function.comp]
  | error e => simp [responsesOf, List.map_map, Function.comp]

theorem responsesOf_invariant (v : List (α × Nat)) (res : Except CaughtError ApiBody) :
    ∀ r ∈ responsesOf v res,
      (r.success = true ↔ r.status = .accepted)
        ∧ (r.status = .accepted → r.error = none)
        ∧ (r.status ≠ .accepted → r.success = false ∧ r.error.isSome = true) := by
  intro r hr
  cases res with
  | ok b =>
    by_cases hb : b.status = some "accepted" <;>
      · simp only [responsesOf, processEmailsResponse, hb, if_true, if_false,
          List.mem_map] at hr
        obtain ⟨p, _, rfl⟩ := hr
        simp
  | error e =>
    simp only [responsesOf, List.mem_map] at hr
    obtain ⟨p, _, rfl⟩ := hr
    simp

theorem responsesOf_error (v : List (α × Nat)) (e : CaughtError) :
    ∀ r ∈ responsesOf v (.error e),
      r.status = .failed ∧ r.error = some (errMessage e) ∧ r.success = false := by
  intro r hr
  simp only [responsesOf, List.mem_map] at hr
  obtain ⟨p, _, rfl⟩ := hr
  simp

theorem mkValidationResp_invariant (q : Nat × String) :
    (mkValidationResp q).success = false
      ∧ (mkValidationResp q).status = .validation_failed
      ∧ (mkValidationResp q).error = some q.2 := by
  simp [mkValidationResp]

theorem requestLoop_calls_pos (jsonParse : String → Option ApiBody)
    (ro : RetryOptions) (script : Nat → AttemptOutcome) (rand : Nat → ℚ)
    (a f : Nat) : 1 ≤ (requestLoop jsonParse ro script rand a f).httpCalls := by
  rw [requestLoop]
  cases tryAttempt jsonParse (script a) with
  | ok body => simp
  | error e =>
    cases f with
    | zero => simp
    | succ f' =>
      by_cases hr : isRetryableError e <;> simp [hr]

theorem requestLoop_sleeps (jsonParse : String → Option ApiBody)
    (ro : RetryOptions) (script : Nat → AttemptOutcome) (rand : Nat → ℚ) :
    ∀ (f a : Nat),
      (requestLoop jsonParse ro script rand a f).sleeps =
        (List.range' a ((requestLoop jsonParse ro script rand a f).httpCalls - 1)).map
          (fun i => calculateRetryDelay ro i (rand i)) := by
  intro f
  induction f with
  | zero =>
    intro a
    rw [requestLoop]
    cases tryAttempt jsonParse (script a) with
    | ok body => simp
    | error e => simp
  | succ f' ih =>
    intro a
    rw [requestLoop]
    cases tryAttempt jsonParse (script a) with
    | ok body => simp
    | error e =>
      by_cases hr : isRetryableError e
      · simp only [hr, if_true]
        have hpos := requestLoop_calls_pos jsonParse ro script rand (a + 1) f'
        obtain ⟨n, hn⟩ : ∃ n,
            (requestLoop jsonParse ro script rand (a + 1) f').httpCalls = n + 1 :=
          ⟨_, (Nat.succ_pred_eq_of_pos hpos).symm⟩
        simp only [ih (a + 1), hn, Nat.add_sub_cancel]
        rw [List.range'_succ]
        simp
      · simp [hr]

theorem getD_chain (b : ApiBody) (z : String) :
    b.error.getD (b.message.getD z) =
      match b.error, b.message with
      | some e, _ => e
      | none, some m => m
      | none, none => z := by
  cases hb : b.error <;> cases hm : b.message <;> rfl

/-- The claim's description of the response classification, written as its own
function: 401 → authentication error with a fixed message; any other status
≥ 400 → API error carrying the status and the parsed body, with the message
taken from the body's `error` field if present, else its `message` field, else
`"HTTP {status}"`; status < 400 → the parsed body; a string body is
JSON-parsed, falling back to `{message: body}` on parse failure. -/
def processResponseContract (jsonParse : String → Option ApiBody)
    (statusCode : Nat) (data : RespBody) : Except CaughtError ApiBody :=
  let body : ApiBody :=
    match data with
    | .str s => (jsonParse s).getD { message := some s }
    | .obj b => b
    | .otherData => {}
  if statusCode = 401 then
    .error (.authError "Invalid authentication token")
  else if statusCode < 400 then
    .ok body
  else
    let msg :=
      match body.error, body.message with
      | some e, _ => e
      | none, some m => m
      | none, none => s!"HTTP {statusCode}"
    .error (.apiError msg statusCode body)

/-- C6: `processResponse` classifies every HTTP response exactly as the spec
describes: 401 → authentication error with a fixed message, other status
≥ 400 → API error with status, parsed body and the error/message/"HTTP n"
message preference, status < 400 → the parsed body, with string bodies
JSON-parsed and falling back to `{message: body}`. -/
theorem processResponse_matches_contract
    (jsonParse : String → Option ApiBody) (statusCode : Nat) (data : RespBody) :
    processResponse jsonParse statusCode data =
      processResponseContract jsonParse statusCode data := by
  have hbody : parseBody jsonParse data =
      (match data with
      | .str s => (jsonParse s).getD { message := some s }
      | .obj b => b
      | .otherData => {}) := by
    cases data with
    | str s =>
      show _ = (jsonParse s).getD _
      cases hj : jsonParse s <;> simp [parseBody, hj]
    | obj b => rfl
    | otherData => rfl
  by_cases h1 : statusCode = 401
  · simp [processResponse, processResponseContract, h1]
  · by_cases h2 : 400 ≤ statusCode
    · have h3 : ¬ statusCode < 400 := by omega
      simp only [processResponse, processResponseContract, h1, if_false, h2,
        if_true, h3, hbody, getD_chain]
    · have h3 : statusCode < 400 := by omega
      simp only [processResponse, processResponseContract, h1, if_false, h2,
        if_true, if_false, h3, hbody]

/-- C9: a webhook payload element whose event-kind discriminator is absent
makes `processSingleEvent` fail hard with a "missing required field" error,
whatever the registered handlers and the remaining fields are — it is never
silently skipped. -/
theorem missing_event_discriminator_hard_error
    (handlers : List (String × Nat)) (d : EventData) :
    processSingleEvent handlers { d with event := none }
      = .error "Webhook payload missing required field: event" := by
  rfl

/-- C8: the backoff delay for attempt `k` with random draw `r` is
`floor(d + d·jitter·r)` where `d = min(baseDelay·backoffMultiplier^k, maxDelay)`,
and every delay actually slept by `makeRequest` (one per retried attempt, in
attempt order) is exactly that formula at its attempt number. -/
theorem backoff_delay_formula :
    (∀ (ro : RetryOptions) (k : Nat) (r : ℚ),
        calculateRetryDelay ro k r =
          Rat.floor
            (min (ro.baseDelay * ro.backoffMultiplier ^ k) ro.maxDelay
              + min (ro.baseDelay * ro.backoffMultiplier ^ k) ro.maxDelay
                  * ro.jitter * r))
      ∧ ∀ (jsonParse : String → Option ApiBody) (rl : Option RateLimitOptions)
          (ro : RetryOptions) (now : Int) (st : RateState)
          (script : Nat → AttemptOutcome) (rand : Nat → ℚ),
          (makeRequest jsonParse rl ro now st script rand).sleeps =
            (List.range
                ((makeRequest jsonParse rl ro now st script rand).httpCalls - 1)).map
              (fun i => calculateRetryDelay ro i (rand i)) := by
  constructor
  · intro ro k r
    rfl
  · intro jp rl ro now st script rand
    unfold makeRequest
    cases hcr : checkRateLimit rl now st with
    | mk o st1 =>
      cases o with
      | some m => simp
      | none =>
        have h := requestLoop_sleeps jp ro script rand ro.maxRetries 0
        rw [List.range_eq_range']
        cases hlp : (requestLoop jp ro script rand 0 ro.maxRetries).result with
        | ok body => simpa [hlp] using h
        | error e => simpa [hlp] using h

/-- C7: with no secret configured `verifySignature` accepts any signature;
with a secret it returns `ok true` whenever the signature — after the optional
`sha256=` prefix strip — equals the hex HMAC digest, and returns `ok false`
immediately whenever the stripped signature and the digest differ in length. -/
theorem verifySignature_hmac_agreement :
    (∀ (hmac : String → List Nat → List Char) (payload : List Nat)
        (sig : List Char), verifySignature none hmac payload sig = .ok true)
      ∧ (∀ (secret : String) (hmac : String → List Nat → List Char)
            (payload : List Nat) (sig : List Char),
            signatureToVerify sig = hmac secret payload →
            verifySignature (some secret) hmac payload sig = .ok true)
      ∧ (∀ (secret : String) (hmac : String → List Nat → List Char)
            (payload : List Nat) (sig : List Char),
            (signatureToVerify sig).length ≠ (hmac secret payload).length →
            verifySignature (some secret) hmac payload sig = .ok false) := by
  refine ⟨fun _ _ _ => rfl, ?_, ?_⟩
  · intro secret hmac payload sig h
    simp [verifySignature, h, timingSafeEqual]
  · intro secret hmac payload sig h
    simp [verifySignature, h]

theorem verifySignature_hmac_agreement_witness :
    verifySignature none (fun _ _ => "ab".toList) [] ("xyz".toList) = .ok true
      ∧ verifySignature (some "k") (fun _ _ => "ab".toList) []
          ("sha256=ab".toList) = .ok true
      ∧ verifySignature (some "k") (fun _ _ => "ab".toList) []
          ("abc".toList) = .ok false :=
  ⟨verifySignature_hmac_agreement.1 (fun _ _ => "ab".toList) [] ("xyz".toList),
    verifySignature_hmac_agreement.2.1 "k" (fun _ _ => "ab".toList) []
      ("sha256=ab".toList) (by decide),
    verifySignature_hmac_agreement.2.2 "k" (fun _ _ => "ab".toList) []
      ("abc".toList) (by decide)⟩

/-- C4 (code bug): for a configured secret, a signature of the same length as
the hex digest but containing non-hex characters makes
`crypto.timingSafeEqual` throw a `RangeError` (the forgiving hex decode yields
buffers of different byte lengths), so `verifySignature` raises instead of
returning `false`.  The digest parameter is instantiated with a 64-hex-char
value, the shape every real HMAC-SHA256 hex digest has. -/
theorem verifySignature_throws_on_equal_length_nonhex :
    verifySignature (some "test-secret") (fun _ _ => List.replicate 64 'a') []
        (List.replicate 64 'z')
      = .error "Input buffers must have the same byte length" := by
  decide

/-- C1 (code bug): because the client constructs axios with
`validateStatus: () => true`, an HTTP 500 response resolves normally and
`processResponse` throws a `LanefulAPIError`, which `isRetryableError`
classifies non-retryable (it is not an axios error) — so with the default
`maxRetries = 3` the HTTP request function runs exactly once instead of up to
4 times, even though `isRetryableError` would have classified an axios-shaped
500 error retryable. -/
theorem http_500_response_not_retried :
    (makeRequest (fun _ => none) none defaultRetryOptions 0 ⟨0, 0⟩
        (fun _ => .resp 500 (.obj { error := some "boom" })) (fun _ => 0)).httpCalls
        = 1
      ∧ (makeRequest (fun _ => none) none defaultRetryOptions 0 ⟨0, 0⟩
          (fun _ => .resp 500 (.obj { error := some "boom" })) (fun _ => 0)).result
          = .error (.apiError "boom" 500 { error := some "boom" })
      ∧ defaultRetryOptions.maxRetries + 1 = 4
      ∧ isRetryableError
          (.axiosErr "err" none (some (500, .obj { error := some "boom" }))) = true
      ∧ isRetryableError
          (.axiosErr "err" none (some (429, .obj { error := some "boom" }))) = true
      ∧ isRetryableError (.apiError "boom" 500 { error := some "boom" }) = false :=
  ⟨rfl, rfl, rfl, rfl, rfl, rfl⟩

theorem sendEmails_run (validate : α → Option String)
    (jsonParse : String → Option ApiBody) (rl : Option RateLimitOptions)
    (ro : RetryOptions) (now : Int) (st : RateState)
    (script : Nat → AttemptOutcome) (rand : Nat → ℚ) (emails : List α)
    (he : emails ≠ [])
    (hv : (partitionEmails validate emails 0).1 ≠ []) :
    sendEmails validate jsonParse rl ro now st script rand emails =
      ⟨.ok ((mergeValidation (partitionEmails validate emails 0).2
            (responsesOf (partitionEmails validate emails 0).1
              (makeRequest jsonParse rl ro now st script rand).result)).mergeSort
          respLe),
        (makeRequest jsonParse rl ro now st script rand).state,
        (makeRequest jsonParse rl ro now st script rand).httpCalls⟩ := by
  have h1 : emails.isEmpty = false := by
    cases emails with
    | nil => exact absurd rfl he
    | cons a l => rfl
  have h2 : ¬ (partitionEmails validate emails 0).1.length = 0 := by
    simpa [List.length_eq_zero] using hv
  simp only [sendEmails, h1, Bool.false_eq_true, if_false, h2]

theorem checkRateLimit_pass (N : Nat) (W t0 t : Int) (c : Nat)
    (hwin : t - t0 < W) (hc : c < N) :
    checkRateLimit (some ⟨N, W⟩) t ⟨c, t0⟩ = (none, ⟨c + 1, t0⟩) := by
  have hr : ¬ (W ≤ t - t0) := by omega
  have hm : ¬ (N ≤ c) := by omega
  simp [checkRateLimit, hr, hm]

theorem checkRateLimit_block (N : Nat) (W t0 t : Int) (c : Nat)
    (hwin : t - t0 < W) (hc : N ≤ c) :
    ∃ m, checkRateLimit (some ⟨N, W⟩) t ⟨c, t0⟩ = (some m, ⟨c, t0⟩) := by
  have hr : ¬ (W ≤ t - t0) := by omega
  refine ⟨toString "Rate limit exceeded. Try again in "
    ++ toString (ceilDiv1000 (W - (t - t0))) ++ toString " seconds.", ?_⟩
  simp [checkRateLimit, hr, hc]

theorem checkRateLimit_reset_pass (N : Nat) (W t0 t : Int) (c : Nat)
    (hel : W ≤ t - t0) (hN : 1 ≤ N) :
    checkRateLimit (some ⟨N, W⟩) t ⟨c, t0⟩ = (none, ⟨1, t⟩) := by
  have hm : ¬ (N ≤ 0) := by omega
  simp [checkRateLimit, hel, hm]

theorem makeRequest_blocked (jsonParse : String → Option ApiBody)
    (rl : Option RateLimitOptions) (ro : RetryOptions) (now : Int)
    (st st1 : RateState) (script : Nat → AttemptOutcome) (rand : Nat → ℚ)
    (msg : String) (h : checkRateLimit rl now st = (some msg, st1)) :
    makeRequest jsonParse rl ro now st script rand =
      ⟨.error (.lanefulError msg), st1, 0, []⟩ := by
  unfold makeRequest
  rw [h]

theorem makeRequest_pass (jsonParse : String → Option ApiBody)
    (rl : Option RateLimitOptions) (ro : RetryOptions) (now : Int)
    (st st1 : RateState) (script : Nat → AttemptOutcome) (rand : Nat → ℚ)
    (h : checkRateLimit rl now st = (none, st1)) :
    (makeRequest jsonParse rl ro now st script rand).state = st1
      ∧ 1 ≤ (makeRequest jsonParse rl ro now st script rand).httpCalls := by
  unfold makeRequest
  rw [h]
  have hpos := requestLoop_calls_pos jsonParse ro script rand 0 ro.maxRetries
  cases hlp : (requestLoop jsonParse ro script rand 0 ro.maxRetries).result with
  | ok body => exact ⟨by simp [hlp], by simpa [hlp] using hpos⟩
  | error e => exact ⟨by simp [hlp], by simpa [hlp] using hpos⟩

/-! ### Index reconciliation for `sendEmails` results -/

theorem responsesOf_index_some (v : List (α × Nat))
    (res : Except CaughtError ApiBody) :
    ∀ r ∈ responsesOf v res, ∃ k, r.index = some k := by
  intro r hr
  cases res with
  | ok b =>
    by_cases hb : b.status = some "accepted" <;>
      · simp only [responsesOf, processEmailsResponse, hb, if_true, if_false,
          List.mem_map] at hr
        obtain ⟨p, _, rfl⟩ := hr
        exact ⟨p.2, rfl⟩
  | error e =>
    simp only [responsesOf, List.mem_map] at hr
    obtain ⟨p, _, rfl⟩ := hr
    exact ⟨p.2, rfl⟩

theorem merged_mem (validate : α → Option String) (emails : List α)
    (res : Except CaughtError ApiBody) (r : EmailResponse)
    (hr : r ∈ mergeValidation (partitionEmails validate emails 0).2
        (responsesOf (partitionEmails validate emails 0).1 res)) :
    r ∈ responsesOf (partitionEmails validate emails 0).1 res
      ∨ ∃ q ∈ (partitionEmails validate emails 0).2, r = mkValidationResp q := by
  have h := (mergeValidation_perm _ _).mem_iff.mp hr
  rcases List.mem_append.mp h with h1 | h1
  · exact Or.inl h1
  · obtain ⟨q, hq, rfl⟩ := List.mem_map.mp h1
    exact Or.inr ⟨q, hq, rfl⟩

theorem merged_indices_perm (validate : α → Option String) (emails : List α)
    (res : Except CaughtError ApiBody) :
    (mergeValidation (partitionEmails validate emails 0).2
        (responsesOf (partitionEmails validate emails 0).1 res)).map
        (fun r => r.index.getD 0)
      ~ List.range emails.length := by
  refine ((mergeValidation_perm _ _).map _).trans ?_
  rw [List.map_append]
  have h1 : (responsesOf (partitionEmails validate emails 0).1 res).map
      (fun r => r.index.getD 0)
      = (partitionEmails validate emails 0).1.map Prod.snd := by
    have hidx := responsesOf_indices (partitionEmails validate emails 0).1 res
    have e1 : (fun (r : EmailResponse) => r.index.getD 0)
        = (fun (o : Option Nat) => o.getD 0) ∘ (fun (r : EmailResponse) => r.index) :=
      rfl
    rw [e1, ← List.map_map, hidx, List.map_map]
    rfl
  have h2 : ((partitionEmails validate emails 0).2.map mkValidationResp).map
      (fun r => r.index.getD 0)
      = (partitionEmails validate emails 0).2.map Prod.fst := by
    rw [List.map_map]; rfl
  rw [h1, h2, List.range_eq_range']
  exact partition_idx_perm validate emails 0

theorem respLe_trans : ∀ (a b c : EmailResponse),
    respLe a b → respLe b c → respLe a c := by
  intro a b c hab hbc
  simp only [respLe, decide_eq_true_eq] at hab hbc ⊢
  omega

theorem respLe_total : ∀ (a b : EmailResponse), respLe a b || respLe b a := by
  intro a b
  simp only [respLe, Bool.or_eq_true, decide_eq_true_eq]
  omega

theorem sorted_result_indices (merged : List EmailResponse) (n : Nat)
    (hperm : merged.map (fun r => r.index.getD 0) ~ List.range n) :
    (merged.mergeSort respLe).map (fun r => r.index.getD 0) = List.range n := by
  have hs1 : List.Sorted (fun a b : Nat => a ≤ b)
      ((merged.mergeSort respLe).map (fun r => r.index.getD 0)) := by
    have hp := List.sorted_mergeSort respLe_trans respLe_total merged
    rw [List.Sorted, List.pairwise_map]
    exact hp.imp (fun h => by simpa [respLe, decide_eq_true_eq] using h)
  have hs2 : List.Sorted (fun a b : Nat => a ≤ b) (List.range n) :=
    List.pairwise_le_range n
  exact List.eq_of_perm_of_sorted
    (((List.mergeSort_perm merged respLe).map _).trans hperm) hs1 hs2

/-- C3: for every non-empty batch with at least one valid message, `sendBatch`
resolves (rather than throwing) with a result list of exactly the input length
whose `index` fields are exactly `0, 1, ..., n-1` in ascending order — no
duplicates, no gaps, matching caller input order. -/
theorem sendEmails_batch_indices (validate : α → Option String)
    (jsonParse : String → Option ApiBody) (rl : Option RateLimitOptions)
    (ro : RetryOptions) (now : Int) (st : RateState)
    (script : Nat → AttemptOutcome) (rand : Nat → ℚ) (emails : List α)
    (he : emails ≠ []) (hvalid : ∃ e ∈ emails, validate e = none) :
    ∃ results,
      (sendEmails validate jsonParse rl ro now st script rand emails).result
          = .ok results
        ∧ results.length = emails.length
        ∧ results.map (fun r => r.index) = (List.range emails.length).map some := by
  have hv := partition_fst_ne_nil validate emails 0 hvalid
  rw [sendEmails_run validate jsonParse rl ro now st script rand emails he hv]
  refine ⟨_, rfl, ?_, ?_⟩
  all_goals
    have hkey := sorted_result_indices
      (mergeValidation (partitionEmails validate emails 0).2
        (responsesOf (partitionEmails validate emails 0).1
          (makeRequest jsonParse rl ro now st script rand).result))
      emails.length
      (merged_indices_perm validate emails
        (makeRequest jsonParse rl ro now st script rand).result)
  · have := congrArg List.length hkey
    simpa using this
  · have hsome : ∀ r ∈ (mergeValidation (partitionEmails validate emails 0).2
        (responsesOf (partitionEmails validate emails 0).1
          (makeRequest jsonParse rl ro now st script rand).result)).mergeSort
        respLe,
        (fun r : EmailResponse => r.index) r
          = (fun r : EmailResponse => some (r.index.getD 0)) r := by
      intro r hr
      rw [List.mem_mergeSort] at hr
      rcases merged_mem validate emails _ r hr with h | ⟨q, _, rfl⟩
      · obtain ⟨k, hk⟩ := responsesOf_index_some _ _ r h
        simp [hk]
      · rfl
    calc ((mergeValidation (partitionEmails validate emails 0).2
        (responsesOf (partitionEmails validate emails 0).1
          (makeRequest jsonParse rl ro now st script rand).result)).mergeSort
          respLe).map (fun r => r.index)
        = ((mergeValidation (partitionEmails validate emails 0).2
            (responsesOf (partitionEmails validate emails 0).1
              (makeRequest jsonParse rl ro now st script rand).result)).mergeSort
            respLe).map (fun r => some (r.index.getD 0)) :=
          List.map_congr_left hsome
      _ = (List.range emails.length).map some := by
          rw [← hkey, List.map_map]; rfl

theorem sendEmails_batch_indices_witness :
    ∃ results,
      (sendEmails (fun b : Bool => if b then none else some "bad")
          (fun _ => none) none defaultRetryOptions 0 ⟨0, 0⟩
          (fun _ => .resp 200 (.obj { status := some "accepted" }))
          (fun _ => 0) [true, false, true]).result = .ok results
        ∧ results.length = 3
        ∧ results.map (fun r => r.index) = (List.range 3).map some :=
  sendEmails_batch_indices (fun b : Bool => if b then none else some "bad")
    (fun _ => none) none defaultRetryOptions 0 ⟨0, 0⟩
    (fun _ => .resp 200 (.obj { status := some "accepted" })) (fun _ => 0)
    [true, false, true] (by decide) ⟨true, by decide, by decide⟩

/-- C5: when every message of a non-empty batch fails validation, `sendBatch`
throws a validation error whose message lists every per-index failure, and
performs zero HTTP invocations (the rate-limiter state is untouched as well). -/
theorem sendEmails_all_invalid_no_io (validate : α → Option String)
    (jsonParse : String → Option ApiBody) (rl : Option RateLimitOptions)
    (ro : RetryOptions) (now : Int) (st : RateState)
    (script : Nat → AttemptOutcome) (rand : Nat → ℚ) (emails : List α)
    (he : emails ≠ []) (hall : ∀ e ∈ emails, validate e ≠ none) :
    sendEmails validate jsonParse rl ro now st script rand emails =
      ⟨.error (.validationError
          ("All emails failed validation: " ++ String.intercalate ", "
            (((List.range emails.length).zip emails).map fun p =>
              let i := p.1
              let m := (validate p.2).getD ""
              s!"[{i}] {m}"))),
        st, 0⟩ := by
  have h1 : emails.isEmpty = false := by
    cases emails with
    | nil => exact absurd rfl he
    | cons a l => rfl
  have hpart := partition_all_invalid validate emails 0 hall
  rw [List.range_eq_range']
  simp only [sendEmails, h1, Bool.false_eq_true, if_false, hpart,
    List.length_nil, if_true, allFailedMsg, List.map_map]
  rfl

theorem sendEmails_all_invalid_no_io_witness :
    sendEmails (fun b : Bool => if b then none else some "bad") (fun _ => none)
        none defaultRetryOptions 0 ⟨0, 0⟩
        (fun _ => .resp 200 (.obj { status := some "accepted" })) (fun _ => 0)
        [false, false]
      = ⟨.error (.validationError
            "All emails failed validation: [0] bad, [1] bad"), ⟨0, 0⟩, 0⟩ := by
  rw [sendEmails_all_invalid_no_io (fun b : Bool => if b then none else some "bad")
    (fun _ => none) none defaultRetryOptions 0 ⟨0, 0⟩
    (fun _ => .resp 200 (.obj { status := some "accepted" })) (fun _ => 0)
    [false, false] (by decide) (by decide)]
  decide

/-- C10 counterexample: a single valid email answered with HTTP 400 and body
`{error: ""}` yields a `failed` result whose error string is *empty* — the
`??` chain in `processResponse` keeps the empty string, `makeRequest` rethrows
the `LanefulAPIError`, and `sendEmails` copies `error.message` verbatim. -/
theorem failed_result_with_empty_error_string :
    (sendEmails (fun _ : Unit => none) (fun _ => none) none defaultRetryOptions
        0 ⟨0, 0⟩ (fun _ => .resp 400 (.obj { error := some "" })) (fun _ => 0)
        [()]).result
      = .ok [{ status := .failed, index := some 0, error := some "",
               success := false }] := by
  have h1 : (sendEmails (fun _ : Unit => none) (fun _ => none) none
      defaultRetryOptions 0 ⟨0, 0⟩
      (fun _ => .resp 400 (.obj { error := some "" })) (fun _ => 0) [()]).result
      = Except.ok
          (([{ status := .failed, index := some 0, error := some "",
               success := false }] : List EmailResponse).mergeSort respLe) := rfl
  rw [h1, List.mergeSort_singleton]

/-- C10 (amended): every `EmailResponse` returned by `sendEmails` satisfies:
`success` is true iff `status` is `accepted`; a non-`accepted` result has
`success = false` and an error string *present* (though possibly empty); an
`accepted` result carries no error. -/
theorem emailResponse_success_invariant (validate : α → Option String)
    (jsonParse : String → Option ApiBody) (rl : Option RateLimitOptions)
    (ro : RetryOptions) (now : Int) (st : RateState)
    (script : Nat → AttemptOutcome) (rand : Nat → ℚ) (emails : List α)
    (results : List EmailResponse)
    (h : (sendEmails validate jsonParse rl ro now st script rand emails).result
        = .ok results) :
    ∀ r ∈ results,
      (r.success = true ↔ r.status = .accepted)
        ∧ (r.status = .accepted → r.error = none)
        ∧ (r.status ≠ .accepted → r.success = false ∧ r.error.isSome = true) := by
  by_cases he : emails.isEmpty = true
  · rw [sendEmails] at h
    simp [he] at h
  · by_cases hz : (partitionEmails validate emails 0).1.length = 0
    · rw [sendEmails] at h
      simp [he, hz] at h
    · have he' : emails ≠ [] := by
        intro hnil
        rw [hnil] at he
        exact he rfl
      have hv' : (partitionEmails validate emails 0).1 ≠ [] := by
        simpa [List.length_eq_zero] using hz
      rw [sendEmails_run validate jsonParse rl ro now st script rand emails
        he' hv'] at h
      have hres := Except.ok.inj h
      intro r hr
      rw [← hres] at hr
      rw [List.mem_mergeSort] at hr
      rcases merged_mem validate emails _ r hr with hmem | ⟨q, _, rfl⟩
      · exact responsesOf_invariant _ _ r hmem
      · exact ⟨by simp [mkValidationResp], by simp [mkValidationResp],
          fun _ => by simp [mkValidationResp]⟩

/-- A concrete accepted response, used to witness the invariant theorem. -/
def sampleAccepted : EmailResponse :=
  { status := .accepted, index := some 0, error := none, success := true }

theorem emailResponse_success_invariant_witness :
    (sampleAccepted.success = true ↔ sampleAccepted.status = .accepted)
      ∧ (sampleAccepted.status = .accepted → sampleAccepted.error = none)
      ∧ (sampleAccepted.status ≠ .accepted →
          sampleAccepted.success = false ∧ sampleAccepted.error.isSome = true) := by
  have h1 : (sendEmails (fun _ : Unit => none) (fun _ => none) none
      defaultRetryOptions 0 ⟨0, 0⟩
      (fun _ => .resp 200 (.obj { status := some "accepted" })) (fun _ => 0)
      [()]).result
      = Except.ok (([sampleAccepted] : List EmailResponse).mergeSort respLe) :=
    rfl
  have h := emailResponse_success_invariant (fun _ : Unit => none) (fun _ => none)
    none defaultRetryOptions 0 ⟨0, 0⟩
    (fun _ => .resp 200 (.obj { status := some "accepted" })) (fun _ => 0) [()]
    [sampleAccepted] (by rw [h1, List.mergeSort_singleton])
  exact h sampleAccepted (by simp)

/-! ### Rate-limit window behaviour across successive calls -/

/-- The rate-limiter state after a sequence of `sendBatch` calls at the given
timestamps (all other client arguments fixed). -/
def sendSeqState (validate : α → Option String)
    (jsonParse : String → Option ApiBody) (rl : Option RateLimitOptions)
    (ro : RetryOptions) (script : Nat → AttemptOutcome) (rand : Nat → ℚ)
    (emails : List α) (ts : List Int) (st : RateState) : RateState :=
  ts.foldl
    (fun s t => (sendEmails validate jsonParse rl ro t s script rand emails).state)
    st

theorem sendSeq_within_window (validate : α → Option String)
    (jsonParse : String → Option ApiBody) (ro : RetryOptions)
    (script : Nat → AttemptOutcome) (rand : Nat → ℚ) (emails : List α)
    (he : emails ≠ []) (hv : (partitionEmails validate emails 0).1 ≠ [])
    (N : Nat) (W t0 : Int) :
    ∀ (ts : List Int) (c : Nat), (∀ t ∈ ts, t - t0 < W) →
      c + ts.length ≤ N →
      sendSeqState validate jsonParse (some ⟨N, W⟩) ro script rand emails ts
          ⟨c, t0⟩
        = ⟨c + ts.length, t0⟩ := by
  intro ts
  induction ts with
  | nil =>
    intro c _ _
    simp [sendSeqState]
  | cons t rest ih =>
    intro c hw hc
    have hcr := checkRateLimit_pass N W t0 t c (hw t (List.mem_cons_self t rest))
      (by simp only [List.length_cons] at hc; omega)
    have hstep : (sendEmails validate jsonParse (some ⟨N, W⟩) ro t ⟨c, t0⟩
        script rand emails).state = ⟨c + 1, t0⟩ := by
      rw [sendEmails_run validate jsonParse (some ⟨N, W⟩) ro t ⟨c, t0⟩ script rand
        emails he hv]
      exact (makeRequest_pass jsonParse (some ⟨N, W⟩) ro t ⟨c, t0⟩ ⟨c + 1, t0⟩
        script rand hcr).1
    have hfold : sendSeqState validate jsonParse (some ⟨N, W⟩) ro script rand
        emails (t :: rest) ⟨c, t0⟩
        = sendSeqState validate jsonParse (some ⟨N, W⟩) ro script rand emails
            rest ⟨c + 1, t0⟩ := by
      simp [sendSeqState, hstep]
    rw [hfold, ih (c + 1) (fun x hx => hw x (List.mem_cons_of_mem t hx))
      (by simp only [List.length_cons] at hc; omega)]
    simp only [List.length_cons]
    congr 1
    omega

theorem sendEmails_blocked_results (validate : α → Option String)
    (jsonParse : String → Option ApiBody) (rl : Option RateLimitOptions)
    (ro : RetryOptions) (now : Int) (st st1 : RateState)
    (script : Nat → AttemptOutcome) (rand : Nat → ℚ) (emails : List α)
    (msg : String)
    (he : emails ≠ []) (hv : (partitionEmails validate emails 0).1 ≠ [])
    (hcr : checkRateLimit rl now st = (some msg, st1)) :
    (sendEmails validate jsonParse rl ro now st script rand emails).httpCalls = 0
      ∧ ∃ results,
          (sendEmails validate jsonParse rl ro now st script rand emails).result
              = .ok results
            ∧ ∀ r ∈ results, r.success = false := by
  rw [sendEmails_run validate jsonParse rl ro now st script rand emails he hv,
    makeRequest_blocked jsonParse rl ro now st st1 script rand msg hcr]
  refine ⟨rfl, _, rfl, ?_⟩
  intro r hr
  rw [List.mem_mergeSort] at hr
  rcases merged_mem validate emails _ r hr with hmem | ⟨q, _, rfl⟩
  · exact (responsesOf_error _ _ r hmem).2.2
  · rfl

/-- C2 (amended): with `maxRequests = N` (N ≥ 1) configured, N `sendBatch`
calls inside the fixed window fill the counter; an (N+1)-th call inside the
same window performs *zero* network I/O, but — because `sendEmails` catches
every error thrown by `makeRequest` — it resolves with per-message `failed`
results carrying the rate-limit message instead of throwing; once the window
has elapsed, a subsequent call reaches the network again. -/
theorem rateLimit_window_behavior (validate : α → Option String)
    (jsonParse : String → Option ApiBody) (ro : RetryOptions)
    (script : Nat → AttemptOutcome) (rand : Nat → ℚ) (emails : List α)
    (N : Nat) (W t0 : Int) (ts : List Int) (tExtra tLater : Int)
    (he : emails ≠ []) (hv : (partitionEmails validate emails 0).1 ≠ [])
    (hN : 1 ≤ N) (hts : ts.length = N)
    (hwin : ∀ t ∈ ts, t - t0 < W) (hextra : tExtra - t0 < W)
    (hlater : W ≤ tLater - t0) :
    sendSeqState validate jsonParse (some ⟨N, W⟩) ro script rand emails ts
        ⟨0, t0⟩ = ⟨N, t0⟩
      ∧ (sendEmails validate jsonParse (some ⟨N, W⟩) ro tExtra ⟨N, t0⟩ script
          rand emails).httpCalls = 0
      ∧ (∃ results,
          (sendEmails validate jsonParse (some ⟨N, W⟩) ro tExtra ⟨N, t0⟩ script
              rand emails).result = .ok results
            ∧ ∀ r ∈ results, r.success = false)
      ∧ 1 ≤ (sendEmails validate jsonParse (some ⟨N, W⟩) ro tLater ⟨N, t0⟩
          script rand emails).httpCalls := by
  obtain ⟨m, hblock⟩ := checkRateLimit_block N W t0 tExtra N hextra (le_refl N)
  have hb := sendEmails_blocked_results validate jsonParse (some ⟨N, W⟩) ro
    tExtra ⟨N, t0⟩ ⟨N, t0⟩ script rand emails m he hv hblock
  refine ⟨?_, hb.1, hb.2, ?_⟩
  · have hseq := sendSeq_within_window validate jsonParse ro script rand emails
      he hv N W t0 ts 0 hwin (by omega)
    simpa [hts] using hseq
  · have hreset := checkRateLimit_reset_pass N W t0 tLater N hlater hN
    rw [sendEmails_run validate jsonParse (some ⟨N, W⟩) ro tLater ⟨N, t0⟩ script
      rand emails he hv]
    exact (makeRequest_pass jsonParse (some ⟨N, W⟩) ro tLater ⟨N, t0⟩
      ⟨1, tLater⟩ script rand hreset).2

theorem rateLimit_window_behavior_witness :
    sendSeqState (fun _ : Unit => none) (fun _ => none) (some ⟨1, 1000⟩)
        defaultRetryOptions
        (fun _ => .resp 200 (.obj { status := some "accepted" })) (fun _ => 0)
        [()] [0] ⟨0, 0⟩ = ⟨1, 0⟩
      ∧ (sendEmails (fun _ : Unit => none) (fun _ => none) (some ⟨1, 1000⟩)
          defaultRetryOptions 1 ⟨1, 0⟩
          (fun _ => .resp 200 (.obj { status := some "accepted" }))
          (fun _ => 0) [()]).httpCalls = 0
      ∧ (∃ results,
          (sendEmails (fun _ : Unit => none) (fun _ => none) (some ⟨1, 1000⟩)
              defaultRetryOptions 1 ⟨1, 0⟩
              (fun _ => .resp 200 (.obj { status := some "accepted" }))
              (fun _ => 0) [()]).result = .ok results
            ∧ ∀ r ∈ results, r.success = false)
      ∧ 1 ≤ (sendEmails (fun _ : Unit => none) (fun _ => none) (some ⟨1, 1000⟩)
          defaultRetryOptions 2000 ⟨1, 0⟩
          (fun _ => .resp 200 (.obj { status := some "accepted" }))
          (fun _ => 0) [()]).httpCalls :=
  rateLimit_window_behavior (fun _ : Unit => none) (fun _ => none)
    defaultRetryOptions
    (fun _ => .resp 200 (.obj { status := some "accepted" })) (fun _ => 0)
    [()] 1 1000 0 [0] 1 2000 (by decide) (by decide) (by decide) (by decide)
    (by decide) (by decide) (by decide)

/-- C2 counterexample: with `maxRequests = 1`, the second `sendBatch` call
inside the window does *not* throw — it resolves with a `failed` result list
carrying the rate-limit message (and performs no network I/O). -/
theorem rateLimit_excess_call_resolves :
    (sendEmails (fun _ : Unit => none) (fun _ => none) (some ⟨1, 1000⟩)
        defaultRetryOptions 0 ⟨0, 0⟩
        (fun _ => .resp 200 (.obj { status := some "accepted" })) (fun _ => 0)
        [()]).state = ⟨1, 0⟩
      ∧ (sendEmails (fun _ : Unit => none) (fun _ => none) (some ⟨1, 1000⟩)
          defaultRetryOptions 1 ⟨1, 0⟩
          (fun _ => .resp 200 (.obj { status := some "accepted" }))
          (fun _ => 0) [()]).result
          = .ok [{ status := .failed, index := some 0,
                   error := some "Rate limit exceeded. Try again in 1 seconds.",
                   success := false }]
      ∧ (sendEmails (fun _ : Unit => none) (fun _ => none) (some ⟨1, 1000⟩)
          defaultRetryOptions 1 ⟨1, 0⟩
          (fun _ => .resp 200 (.obj { status := some "accepted" }))
          (fun _ => 0) [()]).httpCalls = 0 := by
  refine ⟨rfl, ?_, rfl⟩
  have h1 : (sendEmails (fun _ : Unit => none) (fun _ => none) (some ⟨1, 1000⟩)
      defaultRetryOptions 1 ⟨1, 0⟩
      (fun _ => .resp 200 (.obj { status := some "accepted" })) (fun _ => 0)
      [()]).result
      = Except.ok
          (([{ status := .failed, index := some 0,
               error := some "Rate limit exceeded. Try again in 1 seconds.",
               success := false }] : List EmailResponse).mergeSort respLe) := by
    rfl
  rw [h1, List.mergeSort_singleton]

end Laneful
